import Mathlib

/-!
Verification of the Transaction Aggregation & Reporting Engine of SpendWise,
a shallow embedding of `src/app/(main)/account/_components/account-chart.tsx`.

Modelling conventions:
* An instant is an `Int`: milliseconds since the Unix epoch (the value of
  `Date.prototype.getTime`).  The report timezone is fixed to UTC, so the
  `date-fns` helpers become pure arithmetic: `startOfDay t` is the floor of
  `t` to a multiple of 86400000 ms, `endOfDay t` is `startOfDay t + 86399999`
  (date-fns sets 23:59:59.999), and `subDays t d` subtracts `d * 86400000`.
  Lean's `/` on `Int` is floor division for the positive literal divisors
  used here, which matches the UTC day arithmetic.
* `Transaction.date` models `new Date(t.date)`: `some ms` when the string
  parses, `none` for an Invalid Date (whose `NaN` time makes both range
  comparisons in the filter return `false`).
* `Transaction.type` is a `String`, the runtime representation of the
  TypeScript union: the code branches on `type === "INCOME"` and lumps every
  other tag into the `else` arm.
* Amounts are `Int` (claims only involve exact integer arithmetic, and the
  code applies no rounding of its own).
* The grouping label `format(date, "MMM dd")` is a month name plus a
  two-digit day of month — the year is dropped.  It is modelled by the
  integer `100 * month + dayOfMonth`, which is in bijection with the label
  text (months 1..12, days 1..31 from the civil-calendar conversion).  The
  sort comparator `new Date(a.date).getTime() - new Date(b.date).getTime()`
  re-parses the year-less label; V8's lenient legacy parser pins the year
  to 2001 and rolls an overflowing day of month into the next month, so the
  comparator value of a label is the timestamp of that month/day in the
  year 2001 — and since 2001 is not a leap year, the producible label
  "Feb 29" rolls over to Mar 1 2001 and ties with "Mar 01".  `sortKey`
  below computes that timestamp (`daysFromCivil 2001` reproduces the
  rollover: it simply counts days past Feb 28).  The civil-calendar
  conversion `civilFromDays` is the standard days-to-(year, month, day)
  algorithm on the proleptic Gregorian calendar.
* JavaScript object string keys ("Jan 01" is not an array index) iterate in
  insertion order, so the `reduce` accumulator is an association list that
  appends unseen keys; `Array.prototype.sort` is stable (ES2019), so
  buckets whose labels tie under the comparator keep their insertion order,
  and the sort is modelled by a stable insertion sort over the comparator
  value.
-/

namespace SpendWise

/-- Milliseconds per civil day. -/
def msPerDay : Int := 86400000

/-- `startOfDay` from date-fns, in the fixed UTC report timezone. -/
def startOfDay (t : Int) : Int := msPerDay * (t / msPerDay)

/-- `endOfDay` from date-fns: 23:59:59.999 of the civil day of `t`. -/
def endOfDay (t : Int) : Int := startOfDay t + (msPerDay - 1)

/-- `subDays` from date-fns: `d` civil days earlier (no DST in UTC). -/
def subDays (t : Int) (d : Nat) : Int := t - (d : Int) * msPerDay

/-- Civil date (year, month, day) of a day number counted from 1970-01-01,
proleptic Gregorian calendar (Howard Hinnant's `civil_from_days`). -/
def civilFromDays (z0 : Int) : Int × Int × Int :=
  let z := z0 + 719468
  let era := z / 146097
  let doe := z - era * 146097
  let yoe := (doe - doe / 1460 + doe / 36524 - doe / 146096) / 365
  let y := yoe + era * 400
  let doy := doe - (365 * yoe + yoe / 4 - yoe / 100)
  let mp := (5 * doy + 2) / 153
  let d := doy - (153 * mp + 2) / 5 + 1
  let m := mp + (if mp < 10 then (3 : Int) else -9)
  (y + (if m ≤ 2 then 1 else 0), m, d)

/-- Day number (from 1970-01-01) of a civil date, inverse of `civilFromDays`
(Howard Hinnant's `days_from_civil`). -/
def daysFromCivil (y m d : Int) : Int :=
  let y2 := y - (if m ≤ 2 then 1 else 0)
  let era := y2 / 400
  let yoe := y2 - era * 400
  let doy := (153 * (m + (if 2 < m then (-3 : Int) else 9)) + 2) / 5 + d - 1
  let doe := yoe * 365 + yoe / 4 - yoe / 100 + doy
  era * 146097 + doe - 719468

/-- Millisecond timestamp of midnight UTC of a civil date; used to write the
concrete instants of the spec scenarios. -/
def msOf (y m d : Int) : Int := msPerDay * daysFromCivil y m d

/-- The grouping label `format(date, "MMM dd")` of an instant, encoded as
`100 * month + dayOfMonth` (order-isomorphic and bijective with the label
text; note the label carries no year). -/
def monthDayOf (t : Int) : Int :=
  let c := civilFromDays (t / msPerDay)
  100 * c.2.1 + c.2.2

/-- A raw transaction record as the chart receives it: `date` is the parse
of the date string (`none` = Invalid Date), `type` the runtime type tag,
`amount` the signed amount (the code never validates its sign). -/
structure Transaction where
  date : Option Int
  type : String
  amount : Int
deriving DecidableEq

/-- The closed set of window presets of `DATE_RANGES` (the TypeScript type
`keyof typeof DATE_RANGES`). -/
inductive Preset
  | d7
  | m1
  | m3
  | m6
  | all
deriving DecidableEq

/-- The `days` field of each `DATE_RANGES` entry (`null` for `ALL`). -/
def Preset.days : Preset → Option Nat
  | .d7 => some 7
  | .m1 => some 30
  | .m3 => some 90
  | .m6 => some 180
  | .all => none

/-- The `DATE_RANGES` record as a runtime lookup on string keys: `none`
models an absent property (`undefined`), `some days` a present entry. -/
def DATE_RANGES (k : String) : Option (Option Nat) :=
  if k = "7D" then some (some 7)
  else if k = "1M" then some (some 30)
  else if k = "3M" then some (some 90)
  else if k = "6M" then some (some 180)
  else if k = "ALL" then some none
  else none

/-- Window resolution on a raw string key, as the untyped runtime would run
lines 65–69: looking up an absent key yields `undefined` and the subsequent
`range.days` access throws, modelled by `none`; otherwise the `[start, end]`
pair of the filter is produced. -/
def resolveWindow (k : String) (now : Int) : Option (Int × Int) :=
  match DATE_RANGES k with
  | none => none
  | some days =>
      some ((match days with
             | some d => startOfDay (subDays now d)
             | none => startOfDay 0),
            endOfDay now)

/-- `startDate` of lines 67–69: `range.days` is truthy for the four
day-count presets and `null` for `ALL`, which selects
`startOfDay(new Date(0))`. -/
def startDate (p : Preset) (now : Int) : Int :=
  match p.days with
  | some d => startOfDay (subDays now d)
  | none => startOfDay 0

/-- The filter predicate of lines 72–74:
`new Date(t.date) >= startDate && new Date(t.date) <= endOfDay(now)`.
An Invalid Date compares `false` on both sides. -/
def passesFilter (s e : Int) (t : Transaction) : Bool :=
  match t.date with
  | some d => decide (s ≤ d) && decide (d ≤ e)
  | none => false

/-- The `filtered` list of lines 72–74. -/
def filteredTxs (txs : List Transaction) (p : Preset) (now : Int) :
    List Transaction :=
  txs.filter (passesFilter (startDate p now) (endOfDay now))

/-- One entry of the `grouped` accumulator / `filteredData` output:
`date` is the `"MMM dd"` label (encoded as `100 * month + day`). -/
structure DayBucket where
  date : Int
  income : Int
  expense : Int
  hasBoth : Bool
deriving DecidableEq

/-- The grouping label of a transaction (line 78).  After the filter the
date is always `some`; the `none` arm is unreachable there (`format` on an
Invalid Date would throw). -/
def monthDayOfTx (t : Transaction) : Int :=
  match t.date with
  | some d => monthDayOf d
  | none => 0

/-- A freshly created accumulator entry (line 80). -/
def newBucket (k : Int) : DayBucket :=
  { date := k, income := 0, expense := 0, hasBoth := false }

/-- Lines 82–88: add one transaction to its day's entry.  `type === "INCOME"`
adds to `income`, every other tag falls into the `else` arm and adds to
`expense`; `hasBoth` is then recomputed from the opposite column. -/
def applyTx (b : DayBucket) (t : Transaction) : DayBucket :=
  if t.type = "INCOME" then
    { b with income := b.income + t.amount, hasBoth := decide (b.expense > 0) }
  else
    { b with expense := b.expense + t.amount, hasBoth := decide (b.income > 0) }

/-- One step of the `reduce` of lines 77–90 on the insertion-ordered
association list: update the existing entry for the transaction's label, or
append a fresh one. -/
def insertGrouped (acc : List DayBucket) (t : Transaction) : List DayBucket :=
  match acc with
  | [] => [applyTx (newBucket (monthDayOfTx t)) t]
  | b :: rest =>
      if b.date = monthDayOfTx t then applyTx b t :: rest
      else b :: insertGrouped rest t

/-- The `grouped` object of lines 77–90 (values in insertion order). -/
def groupTxs (txs : List Transaction) : List DayBucket :=
  txs.foldl insertGrouped []

/-- The comparator value of a label in the sort of lines 93–95:
`new Date(label).getTime()` where the year-less `"MMM dd"` label re-parses
with the year pinned to 2001 and an overflowing day rolled into the next
month ("Feb 29" → Mar 1 2001, tying with "Mar 01"; `daysFromCivil`
reproduces the rollover by counting days). -/
def sortKey (k : Int) : Int :=
  msPerDay * daysFromCivil 2001 (k / 100) (k % 100)

/-- Ordered insertion for the sort of lines 93–95: a bucket is placed
before the first bucket of equal or greater comparator value, which
together with the right fold of `sortBuckets` puts buckets with tied
comparator values in their original (insertion) order — the stable-sort
semantics of `Array.prototype.sort`. -/
def insertSorted (b : DayBucket) : List DayBucket → List DayBucket
  | [] => [b]
  | c :: rest =>
      if sortKey b.date ≤ sortKey c.date then b :: c :: rest
      else c :: insertSorted b rest

/-- The sort of lines 93–95: the stable sort of the bucket list by the
comparator value of the re-parsed label. -/
def sortBuckets (l : List DayBucket) : List DayBucket :=
  l.foldr insertSorted []

/-- `filteredData` (lines 64–96): filter, group by day label, sort. -/
def filteredData (txs : List Transaction) (p : Preset) (now : Int) :
    List DayBucket :=
  sortBuckets (groupTxs (filteredTxs txs p now))

/-- The `reduce` of lines 100–106 over a bucket list. -/
def totalsOf (l : List DayBucket) : Int × Int :=
  l.foldl (fun acc b => (acc.1 + b.income, acc.2 + b.expense)) (0, 0)

/-- `totals` (lines 99–107): `(income, expense)` for the selected period. -/
def totals (txs : List Transaction) (p : Preset) (now : Int) : Int × Int :=
  totalsOf (filteredData txs p now)

/-- The data computed by the `AccountChart` component for a given clock
reading: the component's only prop is `transactions` (line 61), the preset
is the `dateRange` UI state, and `clockNow` is the value of the `new Date()`
call on line 66 — the component has no `now` parameter. -/
def accountChartReport (transactions : List Transaction) (dateRange : Preset)
    (clockNow : Int) : List DayBucket × Int × Int :=
  (filteredData transactions dateRange clockNow,
   totals transactions dateRange clockNow)

/-- The `"MMM dd"` keys of a bucket list. -/
def bucketDates (l : List DayBucket) : List Int :=
  l.map (fun b => b.date)

example : daysFromCivil 2024 1 1 = 19723 := by decide
example : civilFromDays 19723 = (2024, 1, 1) := by decide
example : monthDayOf (msOf 2024 1 3) = 103 := by decide
example : sortKey 229 = sortKey 301 := by decide
example : sortKey 228 < sortKey 229 := by decide

/-! ### Helper lemmas about the grouping accumulator -/

theorem applyTx_date (b : DayBucket) (t : Transaction) :
    (applyTx b t).date = b.date := by
  unfold applyTx
  split <;> rfl

theorem bucketDates_nil : bucketDates [] = [] := rfl

theorem bucketDates_cons (b : DayBucket) (l : List DayBucket) :
    bucketDates (b :: l) = b.date :: bucketDates l := rfl

theorem bucketDates_insertGrouped (acc : List DayBucket) (t : Transaction) :
    bucketDates (insertGrouped acc t) =
      if monthDayOfTx t ∈ bucketDates acc then bucketDates acc
      else bucketDates acc ++ [monthDayOfTx t] := by
  induction acc with
  | nil =>
      simp [insertGrouped, bucketDates, applyTx_date, newBucket]
  | cons b rest ih =>
      by_cases h : b.date = monthDayOfTx t
      · simp [insertGrouped, h, bucketDates_cons, applyTx_date]
      · have hne : monthDayOfTx t ≠ b.date := fun hh => h hh.symm
        simp only [insertGrouped, if_neg h, bucketDates_cons, ih,
          List.mem_cons, hne, false_or]
        by_cases hm : monthDayOfTx t ∈ bucketDates rest
        · simp [hm]
        · simp [hm]

theorem mem_bucketDates_insertGrouped {x : Int} (acc : List DayBucket)
    (t : Transaction) :
    x ∈ bucketDates (insertGrouped acc t) ↔
      x ∈ bucketDates acc ∨ x = monthDayOfTx t := by
  rw [bucketDates_insertGrouped]
  by_cases hm : monthDayOfTx t ∈ bucketDates acc
  · rw [if_pos hm]
    exact ⟨Or.inl, fun h => h.elim id (fun hx => hx ▸ hm)⟩
  · rw [if_neg hm]
    simp

theorem nodup_bucketDates_insertGrouped (acc : List DayBucket)
    (t : Transaction) (h : (bucketDates acc).Nodup) :
    (bucketDates (insertGrouped acc t)).Nodup := by
  rw [bucketDates_insertGrouped]
  by_cases hm : monthDayOfTx t ∈ bucketDates acc
  · rwa [if_pos hm]
  · rw [if_neg hm]
    simp [List.nodup_append, h, hm]

theorem nodup_bucketDates_foldl (l : List Transaction) :
    ∀ acc : List DayBucket, (bucketDates acc).Nodup →
      (bucketDates (l.foldl insertGrouped acc)).Nodup := by
  induction l with
  | nil => intro acc h; simpa using h
  | cons t ts ih =>
      intro acc h
      rw [List.foldl_cons]
      exact ih _ (nodup_bucketDates_insertGrouped acc t h)

theorem nodup_bucketDates_groupTxs (txs : List Transaction) :
    (bucketDates (groupTxs txs)).Nodup :=
  nodup_bucketDates_foldl txs [] (by simp [bucketDates])

theorem mem_insertGrouped_origin {b : DayBucket} (acc : List DayBucket)
    (t : Transaction) (hb : b ∈ insertGrouped acc t) :
    (∃ c ∈ acc, b.date = c.date) ∨ b.date = monthDayOfTx t := by
  induction acc with
  | nil =>
      simp only [insertGrouped, List.mem_singleton] at hb
      right
      rw [hb, applyTx_date]
      rfl
  | cons c rest ih =>
      by_cases h : c.date = monthDayOfTx t
      · simp only [insertGrouped, if_pos h, List.mem_cons] at hb
        rcases hb with hb | hb
        · exact Or.inl ⟨c, List.mem_cons_self c rest, by rw [hb, applyTx_date]⟩
        · exact Or.inl ⟨b, List.mem_cons_of_mem c hb, rfl⟩
      · simp only [insertGrouped, if_neg h, List.mem_cons] at hb
        rcases hb with hb | hb
        · exact Or.inl ⟨c, List.mem_cons_self c rest, by rw [hb]⟩
        · rcases ih hb with ⟨c2, hc2, he⟩ | he
          · exact Or.inl ⟨c2, List.mem_cons_of_mem c hc2, he⟩
          · exact Or.inr he

theorem mem_foldl_insertGrouped_origin (l : List Transaction) :
    ∀ (acc : List DayBucket) (b : DayBucket), b ∈ l.foldl insertGrouped acc →
      (∃ c ∈ acc, b.date = c.date) ∨ ∃ t ∈ l, monthDayOfTx t = b.date := by
  induction l with
  | nil =>
      intro acc b hb
      exact Or.inl ⟨b, by simpa using hb, rfl⟩
  | cons t ts ih =>
      intro acc b hb
      rw [List.foldl_cons] at hb
      rcases ih _ b hb with ⟨c, hc, hbc⟩ | ⟨t2, ht2, he⟩
      · rcases mem_insertGrouped_origin acc t hc with ⟨c2, hc2, he2⟩ | he2
        · exact Or.inl ⟨c2, hc2, hbc.trans he2⟩
        · exact Or.inr ⟨t, List.mem_cons_self t ts, (hbc.trans he2).symm⟩
      · exact Or.inr ⟨t2, List.mem_cons_of_mem t ht2, he⟩

/-! ### Helper lemmas about the sort -/

theorem insertSorted_perm (b : DayBucket) (l : List DayBucket) :
    (insertSorted b l).Perm (b :: l) := by
  induction l with
  | nil => exact List.Perm.refl _
  | cons c rest ih =>
      by_cases h : sortKey b.date ≤ sortKey c.date
      · rw [insertSorted, if_pos h]
      · rw [insertSorted, if_neg h]
        exact (ih.cons c).trans (List.Perm.swap b c rest)

theorem mem_insertSorted {x b : DayBucket} {l : List DayBucket} :
    x ∈ insertSorted b l ↔ x = b ∨ x ∈ l := by
  rw [(insertSorted_perm b l).mem_iff]
  simp

theorem pairwise_le_insertSorted (b : DayBucket) (l : List DayBucket)
    (h : l.Pairwise (fun x y => sortKey x.date ≤ sortKey y.date)) :
    (insertSorted b l).Pairwise
      (fun x y => sortKey x.date ≤ sortKey y.date) := by
  induction l with
  | nil => simp [insertSorted]
  | cons c rest ih =>
      rw [List.pairwise_cons] at h
      obtain ⟨hc, hrest⟩ := h
      by_cases hbc : sortKey b.date ≤ sortKey c.date
      · rw [insertSorted, if_pos hbc]
        refine List.Pairwise.cons ?_ (List.Pairwise.cons hc hrest)
        intro x hx
        rcases List.mem_cons.mp hx with h1 | h1
        · rw [h1]
          exact hbc
        · exact le_trans hbc (hc x h1)
      · rw [insertSorted, if_neg hbc]
        refine List.Pairwise.cons ?_ (ih hrest)
        intro x hx
        rcases mem_insertSorted.mp hx with h1 | h1
        · rw [h1]
          exact le_of_not_le hbc
        · exact hc x h1

theorem sortBuckets_perm (l : List DayBucket) : (sortBuckets l).Perm l := by
  induction l with
  | nil => exact List.Perm.refl _
  | cons b rest ih =>
      exact (insertSorted_perm b (sortBuckets rest)).trans (ih.cons b)

theorem pairwise_le_sortBuckets (l : List DayBucket) :
    (sortBuckets l).Pairwise (fun x y => sortKey x.date ≤ sortKey y.date) := by
  induction l with
  | nil => simp [sortBuckets]
  | cons b rest ih => exact pairwise_le_insertSorted b (sortBuckets rest) ih

/-! ### Helper lemmas about totals and the filter -/

theorem totalsOf_foldl (l : List DayBucket) :
    ∀ a b : Int,
      l.foldl (fun acc bk => (acc.1 + bk.income, acc.2 + bk.expense)) (a, b) =
        (a + (l.map (fun bk => bk.income)).sum,
         b + (l.map (fun bk => bk.expense)).sum) := by
  induction l with
  | nil => intro a b; simp
  | cons c rest ih =>
      intro a b
      rw [List.foldl_cons, ih]
      simp [add_assoc]

theorem filteredTxs_filter_isSome (txs : List Transaction) (p : Preset)
    (now : Int) :
    filteredTxs txs p now =
      filteredTxs (txs.filter (fun t => t.date.isSome)) p now := by
  unfold filteredTxs
  induction txs with
  | nil => rfl
  | cons t ts ih =>
      cases hd : t.date with
      | none => simp [List.filter_cons, passesFilter, hd, ih]
      | some d => simp [List.filter_cons, hd, ih]

/-! ### Concrete inputs used by the claim theorems -/

/-- The transaction list of the spec's concrete scenario. -/
def txsC2 : List Transaction :=
  [⟨some (msOf 2024 1 1), "INCOME", 100⟩,
   ⟨some (msOf 2024 1 1), "EXPENSE", 40⟩,
   ⟨some (msOf 2024 1 3), "EXPENSE", 10⟩]

/-- The reference instant 2024-01-10 of the spec's concrete scenario. -/
def nowC2 : Int := msOf 2024 1 10

/-- A single in-window income transaction on 2024-01-05. -/
def txsC3 : List Transaction := [⟨some (msOf 2024 1 5), "INCOME", 10⟩]

/-- A well-dated transaction carrying a negative amount. -/
def txC4 : Transaction := ⟨some (msOf 2024 1 1), "EXPENSE", -50⟩

/-- A single valid transaction on 2024-02-14. -/
def txsW1 : List Transaction := [⟨some (msOf 2024 2 14), "INCOME", 7⟩]

/-- A leap-day pair: a transaction on 2024-03-01 listed before one on
2024-02-29, so the "Mar 01" bucket is created before the "Feb 29" one. -/
def txsC1 : List Transaction :=
  [⟨some (msOf 2024 3 1), "EXPENSE", 5⟩,
   ⟨some (msOf 2024 2 29), "EXPENSE", 7⟩]

/-- Two income transactions on the same month-day of different years. -/
def txsC1b : List Transaction :=
  [⟨some (msOf 2023 1 1), "INCOME", 1⟩,
   ⟨some (msOf 2024 1 1), "INCOME", 2⟩]

/-- Reference instant 2024-01-10 for the boundary witness. -/
def nowW6 : Int := msOf 2024 1 10

/-- A transaction dated exactly at `endOfDay nowW6`. -/
def txW6 : Transaction := ⟨some (endOfDay nowW6), "EXPENSE", 5⟩

/-- A transaction a year before the 7-day window of 2024-01-10. -/
def txsW8 : List Transaction := [⟨some (msOf 2023 1 1), "INCOME", 5⟩]

/-! ### The claims -/

/-- C1 counterexample: the bucket sequence is not always sorted strictly
ascending by day key.  The comparator re-parses year-less labels with the
year pinned to 2001, which is not a leap year, so "Feb 29" (key 229) rolls
over to Mar 1 2001 and ties with "Mar 01" (key 301); with the 2024-03-01
transaction listed first, the stable sort keeps the "Mar 01" bucket before
the "Feb 29" bucket, out of ascending key order.  Moreover the key is a
year-less month-day class, not a civil day: transactions on 2023-01-01 and
2024-01-01 — two distinct civil days — are merged into the single "Jan 01"
bucket. -/
theorem c1_strict_sort_cex :
    (filteredData txsC1 Preset.all (msOf 2024 3 10) =
        [⟨301, 0, 5, false⟩, ⟨229, 0, 7, false⟩] ∧
      ¬ (filteredData txsC1 Preset.all (msOf 2024 3 10)).Pairwise
          (fun a b => a.date < b.date)) ∧
    filteredData txsC1b Preset.all (msOf 2024 1 10) = [⟨101, 3, 0, false⟩] := by
  decide

/-- C1 amended: for every transaction list and preset, the bucket sequence
is keyed by the code's year-less month-day label (distinct civil days that
share a month-day are merged into one bucket, not duplicated); it is sorted
non-decreasingly by the comparator value of the re-parsed label — strictness
failing only where distinct labels tie, i.e. "Feb 29" versus "Mar 01",
where the stable sort keeps insertion order; it contains no duplicate
labels; and no bucket is materialized without at least one in-window
transaction bearing its label — never for a day with zero transactions. -/
theorem c1_bucket_order_nodup (txs : List Transaction) (p : Preset)
    (now : Int) :
    (filteredData txs p now).Pairwise
      (fun a b => sortKey a.date ≤ sortKey b.date) ∧
    (bucketDates (filteredData txs p now)).Nodup ∧
    ∀ b ∈ filteredData txs p now,
      ∃ t ∈ filteredTxs txs p now, monthDayOfTx t = b.date := by
  refine ⟨?_, ?_, ?_⟩
  · exact pairwise_le_sortBuckets (groupTxs (filteredTxs txs p now))
  · have hnd : (bucketDates (groupTxs (filteredTxs txs p now))).Nodup :=
      nodup_bucketDates_groupTxs _
    have hperm : (bucketDates (filteredData txs p now)).Perm
        (bucketDates (groupTxs (filteredTxs txs p now))) :=
      (sortBuckets_perm _).map _
    exact hperm.nodup_iff.mpr hnd
  · intro b hb
    have hb2 : b ∈ groupTxs (filteredTxs txs p now) :=
      (sortBuckets_perm _).mem_iff.mp hb
    rcases mem_foldl_insertGrouped_origin _ [] b hb2 with ⟨c, hc, _⟩ | h
    · exact absurd hc (List.not_mem_nil c)
    · exact h

/-- C1 witness: on a concrete run the engine's only bucket (key 214,
i.e. "Feb 14") is backed by an in-window transaction with that key. -/
theorem c1_bucket_order_nodup_witness :
    ∃ t ∈ filteredTxs txsW1 Preset.all (msOf 2024 2 20),
      monthDayOfTx t = 214 := by
  have h := (c1_bucket_order_nodup txsW1 Preset.all (msOf 2024 2 20)).2.2
    ⟨214, 7, 0, false⟩ (by decide)
  exact h

/-- C2: on transactions [2024-01-01 INCOME 100, 2024-01-01 EXPENSE 40,
2024-01-03 EXPENSE 10] with preset ALL and now = 2024-01-10 the engine
produces exactly the buckets for 2024-01-01 (income 100, expense 40) and
2024-01-03 (income 0, expense 10) — the code keys them by the month-day
labels "Jan 01"/"Jan 03", encoded 101 and 103 — and totals
(income 100, expense 50) with net 50. -/
theorem c2_concrete_all_scenario :
    monthDayOf (msOf 2024 1 1) = 101 ∧ monthDayOf (msOf 2024 1 3) = 103 ∧
    filteredData txsC2 Preset.all nowC2 =
      [⟨101, 100, 40, true⟩, ⟨103, 0, 10, false⟩] ∧
    totals txsC2 Preset.all nowC2 = (100, 50) ∧
    (totals txsC2 Preset.all nowC2).1 - (totals txsC2 Preset.all nowC2).2 = 50 := by
  decide

/-- C3 counterexample: `now` is not a caller-supplied parameter of the
computation — the component's only prop is `transactions` (line 61) and the
reference instant is read from the process clock by `new Date()` on
line 66.  With all caller-supplied inputs held fixed (same transactions,
same preset), two different clock readings yield different reports, so the
report is not a function of the inputs the claim names as caller-supplied. -/
theorem c3_report_not_clock_free :
    accountChartReport txsC3 Preset.d7 (msOf 2024 1 6) ≠
      accountChartReport txsC3 Preset.d7 (msOf 2024 3 1) := by
  decide

/-- C3 amended: the reference instant is read from the process clock inside
the computation, not caller-supplied; holding that reading fixed the report
is a deterministic function of (transactions, preset, clock reading) —
indeed it depends on the clock only through its civil day, so any two clock
readings in the same civil day produce identical reports. -/
theorem c3_report_window_determined (txs : List Transaction) (p : Preset)
    (n1 n2 : Int) (h : n1 / msPerDay = n2 / msPerDay) :
    accountChartReport txs p n1 = accountChartReport txs p n2 := by
  have h2 : n1 / 86400000 = n2 / 86400000 := by simpa [msPerDay] using h
  have hs : startDate p n1 = startDate p n2 := by
    cases p <;>
      simp only [startDate, Preset.days, startOfDay, subDays, msPerDay] <;>
      omega
  have he : endOfDay n1 = endOfDay n2 := by
    simp only [endOfDay, startOfDay, msPerDay]
    omega
  unfold accountChartReport totals filteredData filteredTxs
  rw [hs, he]

/-- C3 witness: two distinct clock readings five seconds apart within
2024-01-06 give the same report. -/
theorem c3_report_window_determined_witness :
    accountChartReport txsC3 Preset.d7 (msOf 2024 1 6) =
      accountChartReport txsC3 Preset.d7 (msOf 2024 1 6 + 5000) :=
  c3_report_window_determined txsC3 Preset.d7 (msOf 2024 1 6)
    (msOf 2024 1 6 + 5000) (by decide)

/-- C4 counterexample: a transaction with a negative amount is not excluded —
on the single record (2024-01-01, EXPENSE, −50) with preset ALL and
now = 2024-01-10 the engine materializes a bucket whose expense sum is −50
and totals (0, −50), so a bucket's expense sum does include a negative
amount. -/
theorem c4_negative_amount_included :
    filteredData [txC4] Preset.all (msOf 2024 1 10) = [⟨101, 0, -50, false⟩] ∧
      totals [txC4] Preset.all (msOf 2024 1 10) = (0, -50) := by
  decide

/-- C4 amended: a transaction whose date is unparseable is excluded from
buckets and totals while all remaining records are still aggregated (the
output is unchanged by deleting the unparseable-date records up front); a
negative amount, however, is not rejected: the grouping step adds every
in-window record's amount — whatever its sign — to exactly one of the two
columns. -/
theorem c4_malformed_date_skipped (txs : List Transaction) (p : Preset)
    (now : Int) :
    filteredData txs p now =
      filteredData (txs.filter (fun t => t.date.isSome)) p now ∧
    totals txs p now = totals (txs.filter (fun t => t.date.isSome)) p now ∧
    ∀ (b : DayBucket) (t : Transaction),
      (applyTx b t).income + (applyTx b t).expense =
        b.income + b.expense + t.amount := by
  refine ⟨?_, ?_, ?_⟩
  · unfold filteredData
    rw [filteredTxs_filter_isSome]
  · unfold totals filteredData
    rw [filteredTxs_filter_isSome]
  · intro b t
    by_cases h : t.type = "INCOME" <;> simp [applyTx, h] <;> ring

/-- C5 counterexample: with preset ALL and the reference instant two days
before the epoch, start (the epoch) is strictly after end (end of the civil
day of `now`), so "start ≤ end in all cases" fails on the code. -/
theorem c5_window_start_le_end_cex :
    ¬ startDate Preset.all (-172800000) ≤ endOfDay (-172800000) := by
  decide

/-- C5 amended: each day-count preset d ∈ {7D ↦ 7, 1M ↦ 30, 3M ↦ 90,
6M ↦ 180} resolves start to the start of the civil day of (now − d days) and
end to the end of the civil day of now, with start ≤ end unconditionally;
preset ALL resolves start to the epoch (which is not the minimum
representable instant of a JavaScript date), and for ALL start ≤ end holds
whenever now is not before the epoch. -/
theorem c5_window_resolution (now : Int) :
    startDate Preset.d7 now = startOfDay (subDays now 7) ∧
    startDate Preset.m1 now = startOfDay (subDays now 30) ∧
    startDate Preset.m3 now = startOfDay (subDays now 90) ∧
    startDate Preset.m6 now = startOfDay (subDays now 180) ∧
    startDate Preset.all now = 0 ∧
    (∀ p : Preset, p ≠ Preset.all → startDate p now ≤ endOfDay now) ∧
    (0 ≤ now → startDate Preset.all now ≤ endOfDay now) := by
  refine ⟨rfl, rfl, rfl, rfl, by simp [startDate, Preset.days, startOfDay],
    ?_, ?_⟩
  · intro p hp
    cases p
    case all => exact absurd rfl hp
    all_goals
      simp only [startDate, Preset.days, startOfDay, subDays, endOfDay,
        msPerDay]
      omega
  · intro h
    simp only [startDate, Preset.days, startOfDay, endOfDay, msPerDay]
    omega

/-- C5 witness: at now = 2024-01-10, start ≤ end both for the 7-day preset
and for ALL. -/
theorem c5_window_resolution_witness :
    startDate Preset.d7 (msOf 2024 1 10) ≤ endOfDay (msOf 2024 1 10) ∧
    startDate Preset.all (msOf 2024 1 10) ≤ endOfDay (msOf 2024 1 10) :=
  ⟨(c5_window_resolution (msOf 2024 1 10)).2.2.2.2.2.1 Preset.d7 (by decide),
   (c5_window_resolution (msOf 2024 1 10)).2.2.2.2.2.2 (by decide)⟩

/-- C6: a transaction of the input list survives the filter (and hence
contributes to a bucket) iff its date parses to an instant d with
window.start ≤ d ≤ window.end, both boundaries inclusive. -/
theorem c6_filter_iff_in_window (txs : List Transaction) (p : Preset)
    (now : Int) (t : Transaction) (ht : t ∈ txs) :
    t ∈ filteredTxs txs p now ↔
      ∃ d, t.date = some d ∧ startDate p now ≤ d ∧ d ≤ endOfDay now := by
  unfold filteredTxs
  rw [List.mem_filter]
  cases hd : t.date with
  | none => simp [passesFilter, hd, ht]
  | some d => simp [passesFilter, hd, ht]

/-- C6 witness: a transaction dated exactly at `endOfDay now` (the
end-of-day instant) is included. -/
theorem c6_filter_iff_in_window_witness :
    txW6 ∈ filteredTxs [txW6] Preset.m1 nowW6 :=
  (c6_filter_iff_in_window [txW6] Preset.m1 nowW6 txW6 (by simp)).mpr
    ⟨endOfDay nowW6, rfl, by decide, le_refl _⟩

/-- C7: for every transaction list, preset and reference instant, the period
totals are the component-wise sums over the bucket sequence: totals.income
is the sum of the buckets' incomes and totals.expense the sum of their
expenses. -/
theorem c7_totals_sum_buckets (txs : List Transaction) (p : Preset)
    (now : Int) :
    totals txs p now =
      (((filteredData txs p now).map (fun b => b.income)).sum,
       ((filteredData txs p now).map (fun b => b.expense)).sum) := by
  unfold totals totalsOf
  rw [totalsOf_foldl]
  simp

/-- C8: for every preset and reference instant, the empty transaction list
yields an empty bucket sequence and totals (0, 0); likewise any list all of
whose transactions fail the window filter yields the empty sequence and
zero totals, not an error. -/
theorem c8_empty_cases (p : Preset) (now : Int) :
    (filteredData [] p now = [] ∧ totals [] p now = (0, 0)) ∧
    ∀ txs : List Transaction,
      (∀ t ∈ txs, passesFilter (startDate p now) (endOfDay now) t = false) →
        filteredData txs p now = [] ∧ totals txs p now = (0, 0) := by
  constructor
  · exact ⟨rfl, rfl⟩
  · intro txs h
    have hf : filteredTxs txs p now = [] := by
      unfold filteredTxs
      rw [List.filter_eq_nil_iff]
      intro t ht
      simp [h t ht]
    constructor
    · unfold filteredData
      rw [hf]
      rfl
    · unfold totals filteredData
      rw [hf]
      rfl

/-- C8 witness: a transaction from 2023-01-01 is outside the 7-day window of
2024-01-10, so the report is empty with zero totals. -/
theorem c8_empty_cases_witness :
    filteredData txsW8 Preset.d7 (msOf 2024 1 10) = [] ∧
      totals txsW8 Preset.d7 (msOf 2024 1 10) = (0, 0) :=
  (c8_empty_cases Preset.d7 (msOf 2024 1 10)).2 txsW8 (by decide)

/-- C9: for every key outside the closed set {7D, 1M, 3M, 6M, ALL}, window
resolution fails (the `DATE_RANGES` lookup yields no entry and the
subsequent `.days` access throws) rather than silently defaulting to some
window. -/
theorem c9_invalid_preset (k : String) (now : Int)
    (h1 : k ≠ "7D") (h2 : k ≠ "1M") (h3 : k ≠ "3M") (h4 : k ≠ "6M")
    (h5 : k ≠ "ALL") : resolveWindow k now = none := by
  unfold resolveWindow DATE_RANGES
  simp [h1, h2, h3, h4, h5]

/-- C9 witness: the key "2W" resolves to no window. -/
theorem c9_invalid_preset_witness : resolveWindow "2W" 0 = none :=
  c9_invalid_preset "2W" 0 (by decide) (by decide) (by decide) (by decide)
    (by decide)

/-- C10: in the grouping step a transaction is added to its day's income sum
iff its type tag is exactly "INCOME"; any other tag — including an
unrecognized one — falls into the single else branch and is added to the
day's expense sum, so there is no third branch and no record is dropped by
type. -/
theorem c10_type_branching (b : DayBucket) (t : Transaction) :
    (t.type = "INCOME" →
      applyTx b t = { b with income := b.income + t.amount,
                             hasBoth := decide (b.expense > 0) }) ∧
    (t.type ≠ "INCOME" →
      applyTx b t = { b with expense := b.expense + t.amount,
                             hasBoth := decide (b.income > 0) }) := by
  constructor
  · intro h
    unfold applyTx
    rw [if_pos h]
  · intro h
    unfold applyTx
    rw [if_neg h]

/-- C10 witness: a transaction with the unrecognized tag "REFUND" is summed
into the expense column. -/
theorem c10_type_branching_witness :
    applyTx ⟨101, 3, 4, false⟩ ⟨some 0, "REFUND", 5⟩ = ⟨101, 3, 9, true⟩ := by
  have h := (c10_type_branching ⟨101, 3, 4, false⟩ ⟨some 0, "REFUND", 5⟩).2
    (by decide)
  simpa using h

end SpendWise
